import Mathlib

/-
Verification of the `MultipleTimeSeriesCV` walk-backward panel splitter and of
the CatBoost prediction branch of
`12_gradient_boosting_machines/08_making_out_of_sample_predictions.ipynb`.

The notebook imports `MultipleTimeSeriesCV` from the repository's `utils`
module, which is not part of the sources at hand; the splitter is therefore
modelled from the specification's algorithm description (its data model,
window arithmetic and error behaviour), and the claims are settled against
that model.  The CatBoost branch itself is present in the notebook and is
embedded syntactically (names bound and referenced, statement order).
-/

set_option maxRecDepth 1000000

/-- One observation of the panel: a composite (entity, date) key.  Dates are
naturals under their usual total order; the entity id is an opaque natural. -/
structure Row where
  entity : Nat
  date : Nat
deriving DecidableEq, Repr

/-- A panel dataset: rows addressable by integer position. -/
abbrev Panel := List Row

/-- Default row used with positional `getD` lookups. -/
def defaultRow : Row := ⟨0, 0⟩

/-- The set of distinct dates present in the panel. -/
def dateFinset (X : Panel) : Finset Nat := (X.map Row.date).toFinset

/-- Modelled from the spec: the unique date index, "the sorted, deduplicated
sequence of all distinct dates present in the panel, sorted descending (most
recent first) for the walk-backward algorithm". -/
def uniqueDatesDesc (X : Panel) : List Nat :=
  (((X.map Row.date).dedup).insertionSort (· ≤ ·)).reverse

/-- The immutable CV configuration: `n_splits`, `train_period_length`,
`test_period_length` and `lookahead`, as in the spec's data model. -/
structure CVConfig where
  n_splits : Nat
  train_period_length : Nat
  test_period_length : Nat
  lookahead : Nat
deriving DecidableEq, Repr

/-- The distinct-date count the panel must supply:
`n_splits * test_period_length + train_period_length + lookahead`. -/
def requiredDates (cfg : CVConfig) : Nat :=
  cfg.n_splits * cfg.test_period_length + cfg.train_period_length + cfg.lookahead

/-- Error raised when the panel's distinct-date count is below the required
span, carrying the required and the available counts. -/
inductive SplitError where
  | insufficientHistory (required available : Nat)
deriving DecidableEq, Repr

/-- Modelled from the spec: the test window of split `i` is "the `i`-th block
of `test_period_length` consecutive dates counting back from the most recent
date" of the descending unique date index. -/
def testWindow (cfg : CVConfig) (days : List Nat) (i : Nat) : List Nat :=
  (days.drop (i * cfg.test_period_length)).take cfg.test_period_length

/-- Modelled from the spec: the train window of split `i` is "the
`train_period_length` dates immediately preceding (older than) the test
window, separated by a gap of `lookahead` dates", i.e. the block of
`train_period_length` dates starting `lookahead` positions below the end of
the test block in the descending date index (as in the spec's example, where
with `lookahead = 1` the train window ends at `d278`, one gap date `d279`
below the oldest test date `d280`). -/
def trainWindow (cfg : CVConfig) (days : List Nat) (i : Nat) : List Nat :=
  (days.drop (i * cfg.test_period_length + cfg.test_period_length + cfg.lookahead)).take
    cfg.train_period_length

/-- Row positions of the panel whose date lies in the given date list:
"map each date ... to all row positions in the dataset whose date matches
(across all entities)". -/
def positionsForDates (X : Panel) (ds : List Nat) : List Nat :=
  (X.enum.filter (fun pr => decide (pr.2.date ∈ ds))).map Prod.fst

/-- Train row positions of split `i`. -/
def trainPositions (cfg : CVConfig) (X : Panel) (i : Nat) : List Nat :=
  positionsForDates X (trainWindow cfg (uniqueDatesDesc X) i)

/-- Test row positions of split `i`. -/
def testPositions (cfg : CVConfig) (X : Panel) (i : Nat) : List Nat :=
  positionsForDates X (testWindow cfg (uniqueDatesDesc X) i)

/-- Modelled from the spec: `MultipleTimeSeriesCV.split` (the splitter lives in
the repository's `utils` module, absent from the sources at hand).  It derives
the descending unique date index, raises `InsufficientHistoryError` before
computing any split when the distinct-date count is below the required span,
and otherwise produces the `n_splits` (train positions, test positions) pairs,
split 0 anchored at the most recent date. -/
def MultipleTimeSeriesCV.split (cfg : CVConfig) (X : Panel) :
    Except SplitError (List (List Nat × List Nat)) :=
  if (uniqueDatesDesc X).length < requiredDates cfg then
    Except.error (SplitError.insufficientHistory (requiredDates cfg) (uniqueDatesDesc X).length)
  else
    Except.ok ((List.range cfg.n_splits).map (fun i =>
      (trainPositions cfg X i, testPositions cfg X i)))

/-- The set of distinct dates carried by a list of row positions. -/
def datesOf (X : Panel) (ps : List Nat) : Finset Nat :=
  (ps.map (fun p => (X.getD p defaultRow).date)).toFinset

/-- A valid configuration: all four parameters positive. -/
def validConfig (cfg : CVConfig) : Prop :=
  0 < cfg.n_splits ∧ 0 < cfg.train_period_length ∧
    0 < cfg.test_period_length ∧ 0 < cfg.lookahead

instance (cfg : CVConfig) : Decidable (validConfig cfg) := by
  unfold validConfig; infer_instance

/-- The distinct-date precondition: the panel supplies at least
`requiredDates cfg` distinct dates. -/
def hasEnoughHistory (cfg : CVConfig) (X : Panel) : Prop :=
  requiredDates cfg ≤ (uniqueDatesDesc X).length

instance (cfg : CVConfig) (X : Panel) : Decidable (hasEnoughHistory cfg X) := by
  unfold hasEnoughHistory; infer_instance

/-- The spec's example panel: 300 consecutive trading dates `d1..d300`, two
entities per date, 600 rows; date `dk` is embedded as the natural `k`. -/
def examplePanel : Panel :=
  (List.range 300).flatMap (fun k => [⟨0, k + 1⟩, ⟨1, k + 1⟩])

/-- The spec's example configuration: `n_splits = 2`,
`train_period_length = 120`, `test_period_length = 21`, `lookahead = 1`. -/
def exampleConfig : CVConfig :=
  { n_splits := 2, train_period_length := 120, test_period_length := 21, lookahead := 1 }

/-- A small panel used to instantiate the universally quantified claims:
six consecutive dates `1..6`, two entities per date, twelve rows. -/
def smallPanel : Panel :=
  (List.range 6).flatMap (fun k => [⟨0, k + 1⟩, ⟨1, k + 1⟩])

/-- A small valid configuration: two splits of one test date each, two train
dates, a one-date gap; it requires `2 * 1 + 2 + 1 = 5 ≤ 6` distinct dates. -/
def smallConfig : CVConfig :=
  { n_splits := 2, train_period_length := 2, test_period_length := 1, lookahead := 1 }

/-- The splits the model produces on the small panel. -/
def smallSplits : List (List Nat × List Nat) :=
  (MultipleTimeSeriesCV.split smallConfig smallPanel).toOption.getD []

/-- A panel with only two distinct dates, below the five required by
`smallConfig`. -/
def shortPanel : Panel := [⟨0, 1⟩, ⟨0, 2⟩, ⟨1, 2⟩]

/-- The descending date list `[n, n-1, ..., 1]`, the unique date index of a
panel over dates `1..n`. -/
def descRange (n : Nat) : List Nat := ((List.range n).map (fun k => k + 1)).reverse

/-
Embedding of the CatBoost prediction branch of the notebook (cells from
`lookahead = 1` under "Generate CatBoost predictions" through the prediction
loop), as a sequence of statements with the names they bind and reference.
-/

/-- The boosting-model families the workflow touches. -/
inductive ModelFamily where
  | lightgbm
  | catboost
deriving DecidableEq, Repr

/-- A statement of the embedded notebook branch: an assignment binding names
and referencing names, a read of a key from the tuned-parameter mapping, the
model-fit call, or the prediction step that resolves the feature columns via
an accessor on the model object. -/
inductive Stmt where
  | assign (binds : List String) (uses : List String)
  | keyRead (keys : List String) (key : String)
  | fitModel (uses : List String)
  | predictFeatures (family : ModelFamily) (accessor : String) (uses : List String)
deriving DecidableEq, Repr

/-- A Python-level failure: an undefined name, a missing mapping key, or a
missing attribute on a model object. -/
inductive PyFailure where
  | nameFailure (n : String)
  | keyFailure (k : String)
  | attributeFailure (family : ModelFamily) (accessor : String)
deriving DecidableEq, Repr

/-- Modelled from the spec: `model.feature_name()` "is a LightGBM-only
accessor"; the CatBoost model object does not define it. -/
def hasFeatureNameAccessor : ModelFamily → Bool
  | ModelFamily.lightgbm => true
  | ModelFamily.catboost => false

/-- First name of `uses` that is not bound in the environment. -/
def firstMissing (env : List String) (uses : List String) : Option String :=
  uses.find? (fun n => !env.contains n)

/-- Runs the embedded statements over an environment of bound names, counting
executed model fits and stopping at the first failure. -/
def runStmts (env : List String) (fits : Nat) : List Stmt → Nat × Option PyFailure
  | [] => (fits, none)
  | Stmt.assign binds uses :: rest =>
    match firstMissing env uses with
    | some n => (fits, some (PyFailure.nameFailure n))
    | none => runStmts (env ++ binds) fits rest
  | Stmt.keyRead keys key :: rest =>
    if keys.contains key then runStmts env fits rest
    else (fits, some (PyFailure.keyFailure key))
  | Stmt.fitModel uses :: rest =>
    match firstMissing env uses with
    | some n => (fits, some (PyFailure.nameFailure n))
    | none => runStmts env (fits + 1) rest
  | Stmt.predictFeatures family accessor uses :: rest =>
    match firstMissing env uses with
    | some n => (fits, some (PyFailure.nameFailure n))
    | none =>
      if accessor == "feature_name" && !hasFeatureNameAccessor family then
        (fits, some (PyFailure.attributeFailure family accessor))
      else runStmts env fits rest

/-- Names bound by the notebook's import cells: `import warnings`, the
main import cell (`time`, `sys`, `os`, `Path`, `pd`, `spearmanr`, `lgb`,
`Pool`, `plt`, `sns`) and `from utils import MultipleTimeSeriesCV`. -/
def importedNames : List String :=
  ["warnings", "time", "sys", "os", "Path", "pd", "spearmanr", "lgb", "Pool",
   "plt", "sns", "MultipleTimeSeriesCV"]

/-- Names the notebook imports from the `catboost` package:
`from catboost import Pool` only. -/
def catboostImportedNames : List String := ["Pool"]

/-- Names bound before the CatBoost branch runs: the imports plus every name
assigned by the settings cells and the LightGBM part of the notebook. -/
def envBeforeCatboostBranch : List String :=
  importedNames ++
  ["YEAR", "idx", "scope_params", "daily_ic_metrics", "lgb_train_params",
   "catboost_train_params", "base_params", "categoricals", "lookahead", "store",
   "data", "labels", "features", "label", "feature", "lgb_data", "lgb_ic",
   "lgb_daily_ic", "get_lgb_params", "position", "params", "p", "train_length",
   "test_length", "num_boost_round", "n_splits", "cv", "predictions", "start",
   "i", "train_idx", "test_idx", "lgb_train", "model", "test_set", "y_test",
   "y_pred", "test_predictions", "by_day", "ic_by_day"]

/-- Keys of the parameter mapping `get_cb_params` returns:
`scope_params[1:] + catboost_train_params + ['boost_rounds']`. -/
def catboostParamKeys : List String :=
  ["train_length", "test_length", "max_depth", "min_child_samples", "boost_rounds"]

/-- The CatBoost branch of the notebook, statement by statement: the settings
cell, the data cells, the `Pool` construction referencing `outcome_data` and
`cat_cols_idx`, the tuning-result cells, and the first pass of the prediction
loop (parameter extraction including the `'max_deptn'` key read, CV
construction, slicing, `CatBoostRegressor` construction, fit and predict). -/
def catboostBranch : List Stmt :=
  [Stmt.assign ["lookahead"] [],
   Stmt.assign ["store"] ["Path"],
   Stmt.assign ["data"] ["pd"],
   Stmt.assign ["labels"] ["data"],
   Stmt.assign ["features"] ["data", "labels"],
   Stmt.assign ["label"] ["lookahead"],
   Stmt.assign ["data"] ["data", "idx", "features", "label"],
   Stmt.assign ["feature", "data"] ["categoricals", "pd", "data"],
   Stmt.assign ["catboost_data"] ["Pool", "outcome_data", "label", "cat_cols_idx"],
   Stmt.assign ["catboost_ic"] ["pd"],
   Stmt.assign ["catboost_ic_avg"] ["pd"],
   Stmt.assign ["get_cb_params"] [],
   Stmt.assign ["position"] [],
   Stmt.assign ["params"] ["get_cb_params", "catboost_ic_avg", "lookahead", "position"],
   Stmt.assign ["params"] ["params"],
   Stmt.keyRead catboostParamKeys "max_deptn",
   Stmt.keyRead catboostParamKeys "min_child_samples",
   Stmt.assign ["train_length"] ["params"],
   Stmt.assign ["test_length"] ["params"],
   Stmt.assign ["num_boost_round"] ["params"],
   Stmt.assign ["n_splits"] ["YEAR", "test_length"],
   Stmt.assign ["cv"] ["MultipleTimeSeriesCV", "n_splits", "test_length", "lookahead", "train_length"],
   Stmt.assign ["predictions"] [],
   Stmt.assign ["start"] ["time"],
   Stmt.assign ["i", "train_idx", "test_idx"] ["cv", "data"],
   Stmt.assign ["train_set"] ["catboost_data", "train_idx"],
   Stmt.assign ["model"] ["CatBoostRegressor", "params"],
   Stmt.fitModel ["model", "train_set"],
   Stmt.assign ["test_set"] ["data", "test_idx"],
   Stmt.assign ["y_test"] ["test_set", "label"],
   Stmt.predictFeatures ModelFamily.catboost "feature_name" ["model", "test_set"],
   Stmt.assign ["y_pred"] ["model", "test_set"]]

/-
General lemmas about the descending unique date index and window extraction.
-/

theorem sorted_uniqueDatesDesc (X : Panel) : (uniqueDatesDesc X).Sorted (· > ·) := by
  unfold uniqueDatesDesc
  rw [List.Sorted, List.pairwise_reverse]
  exact List.Sorted.lt_of_le (List.sorted_insertionSort _ _)
    ((List.perm_insertionSort _ _).nodup_iff.mpr (List.nodup_dedup _))

theorem nodup_uniqueDatesDesc (X : Panel) : (uniqueDatesDesc X).Nodup :=
  (sorted_uniqueDatesDesc X).nodup

theorem mem_uniqueDatesDesc {X : Panel} {d : Nat} :
    d ∈ uniqueDatesDesc X ↔ d ∈ dateFinset X := by
  unfold uniqueDatesDesc dateFinset
  rw [List.mem_reverse, List.mem_insertionSort, List.mem_dedup, List.mem_toFinset]

theorem length_uniqueDatesDesc (X : Panel) :
    (uniqueDatesDesc X).length = (dateFinset X).card := by
  unfold uniqueDatesDesc dateFinset
  rw [List.length_reverse, (List.perm_insertionSort _ _).length_eq, List.card_toFinset]

theorem mem_iff_getD {l : List Nat} {d : Nat} :
    d ∈ l ↔ ∃ j, j < l.length ∧ l.getD j 0 = d := by
  rw [List.mem_iff_getElem]
  constructor
  · rintro ⟨j, hj, hjd⟩
    exact ⟨j, hj, by rw [List.getD_eq_getElem l 0 hj, hjd]⟩
  · rintro ⟨j, hj, hjd⟩
    exact ⟨j, hj, by rw [← List.getD_eq_getElem l 0 hj, hjd]⟩

theorem getD_drop_take {l : List Nat} {a b k : Nat} (hk : k < b) :
    ((l.drop a).take b).getD k 0 = l.getD (a + k) 0 := by
  rw [List.getD_eq_getElem?_getD, List.getD_eq_getElem?_getD, List.getElem?_take,
    if_pos hk, List.getElem?_drop]

theorem length_drop_take {l : List Nat} {a b : Nat} (h : a + b ≤ l.length) :
    ((l.drop a).take b).length = b := by
  rw [List.length_take, List.length_drop]
  omega

theorem subset_drop_take (l : List Nat) (a b : Nat) : (l.drop a).take b ⊆ l :=
  fun _ hx => List.drop_subset a l (List.take_subset b _ hx)

theorem nodup_drop_take {l : List Nat} (h : l.Nodup) (a b : Nat) :
    ((l.drop a).take b).Nodup :=
  h.sublist ((List.take_sublist b _).trans (List.drop_sublist a l))

theorem mem_drop_take_iff {l : List Nat} {a b d : Nat} :
    d ∈ (l.drop a).take b ↔ ∃ k, k < b ∧ a + k < l.length ∧ l.getD (a + k) 0 = d := by
  rw [List.mem_iff_getElem]
  constructor
  · rintro ⟨k, hk, hkd⟩
    rw [List.length_take, List.length_drop] at hk
    refine ⟨k, by omega, by omega, ?_⟩
    rw [← getD_drop_take (by omega : k < b), List.getD_eq_getElem _ 0, hkd]
  · rintro ⟨k, hkb, hkl, hkd⟩
    have hlen : k < ((l.drop a).take b).length := by
      rw [List.length_take, List.length_drop]; omega
    refine ⟨k, hlen, ?_⟩
    rw [← List.getD_eq_getElem _ 0 hlen, getD_drop_take hkb, hkd]

theorem sorted_gt_getD_lt {l : List Nat} (hs : l.Sorted (· > ·)) {j k : Nat}
    (hk : k < l.length) (hjk : j < k) : l.getD k 0 < l.getD j 0 := by
  have hj : j < l.length := lt_trans hjk hk
  rw [List.getD_eq_getElem l 0 hj, List.getD_eq_getElem l 0 hk]
  exact List.Sorted.rel_get_of_lt hs hjk

theorem sorted_gt_getD_lt_iff {l : List Nat} (hs : l.Sorted (· > ·)) {j k : Nat}
    (hj : j < l.length) (hk : k < l.length) : l.getD k 0 < l.getD j 0 ↔ j < k := by
  constructor
  · intro h
    by_contra hjk
    rcases Nat.lt_or_ge k j with hkj | hge
    · exact absurd (sorted_gt_getD_lt hs hj hkj) (by omega)
    · have : j = k := by omega
      subst this; omega
  · exact sorted_gt_getD_lt hs hk

theorem drop_take_lt {l : List Nat} (hs : l.Sorted (· > ·)) {a₁ b₁ a₂ b₂ : Nat}
    (hle : a₁ + b₁ ≤ a₂) :
    ∀ x ∈ (l.drop a₁).take b₁, ∀ y ∈ (l.drop a₂).take b₂, y < x := by
  intro x hx y hy
  obtain ⟨k₁, hk₁, hkl₁, rfl⟩ := mem_drop_take_iff.mp hx
  obtain ⟨k₂, hk₂, hkl₂, rfl⟩ := mem_drop_take_iff.mp hy
  exact sorted_gt_getD_lt hs hkl₂ (by omega)

/-
Row-position expansion lemmas.
-/

theorem mem_positionsForDates {X : Panel} {ds : List Nat} {p : Nat} :
    p ∈ positionsForDates X ds ↔ p < X.length ∧ (X.getD p defaultRow).date ∈ ds := by
  unfold positionsForDates
  simp only [List.mem_map, List.mem_filter, decide_eq_true_eq]
  constructor
  · rintro ⟨⟨q, r⟩, ⟨hmem, hds⟩, rfl⟩
    rw [List.mk_mem_enum_iff_getElem?] at hmem
    obtain ⟨hq, hqr⟩ := List.getElem?_eq_some.mp hmem
    refine ⟨hq, ?_⟩
    rw [List.getD_eq_getElem X defaultRow hq, hqr]
    exact hds
  · rintro ⟨hp, hd⟩
    refine ⟨(p, X.getD p defaultRow), ⟨?_, hd⟩, rfl⟩
    rw [List.mk_mem_enum_iff_getElem?, List.getElem?_eq_some]
    exact ⟨hp, (List.getD_eq_getElem X defaultRow hp).symm⟩

theorem mem_dateFinset {X : Panel} {d : Nat} :
    d ∈ dateFinset X ↔ ∃ p, p < X.length ∧ (X.getD p defaultRow).date = d := by
  unfold dateFinset
  rw [List.mem_toFinset, List.mem_map]
  constructor
  · rintro ⟨r, hr, hrd⟩
    obtain ⟨p, hp, hpr⟩ := List.mem_iff_getElem.mp hr
    exact ⟨p, hp, by rw [List.getD_eq_getElem X defaultRow hp, hpr, hrd]⟩
  · rintro ⟨p, hp, hpd⟩
    refine ⟨X.getD p defaultRow, ?_, hpd⟩
    rw [List.getD_eq_getElem X defaultRow hp]
    exact List.getElem_mem hp

theorem datesOf_positionsForDates {X : Panel} {ds : List Nat}
    (hds : ∀ d ∈ ds, d ∈ dateFinset X) :
    datesOf X (positionsForDates X ds) = ds.toFinset := by
  ext d
  unfold datesOf
  rw [List.mem_toFinset, List.mem_map, List.mem_toFinset]
  constructor
  · rintro ⟨p, hp, rfl⟩
    exact (mem_positionsForDates.mp hp).2
  · intro hd
    obtain ⟨p, hp, hpd⟩ := mem_dateFinset.mp (hds d hd)
    exact ⟨p, mem_positionsForDates.mpr ⟨hp, by rw [hpd]; exact hd⟩, hpd⟩

/-
Lemmas about the splitter's output.
-/

theorem split_ok {cfg : CVConfig} {X : Panel} (hh : hasEnoughHistory cfg X) :
    MultipleTimeSeriesCV.split cfg X =
      Except.ok ((List.range cfg.n_splits).map (fun i =>
        (trainPositions cfg X i, testPositions cfg X i))) := by
  unfold MultipleTimeSeriesCV.split
  rw [if_neg]
  unfold hasEnoughHistory at hh
  omega

theorem split_ok_inv {cfg : CVConfig} {X : Panel} {splits : List (List Nat × List Nat)}
    (hh : hasEnoughHistory cfg X)
    (hs : MultipleTimeSeriesCV.split cfg X = Except.ok splits) :
    splits = (List.range cfg.n_splits).map (fun i =>
      (trainPositions cfg X i, testPositions cfg X i)) := by
  rw [split_ok hh] at hs
  exact (Except.ok.inj hs).symm

theorem split_length {cfg : CVConfig} {X : Panel} {splits : List (List Nat × List Nat)}
    (hh : hasEnoughHistory cfg X)
    (hs : MultipleTimeSeriesCV.split cfg X = Except.ok splits) :
    splits.length = cfg.n_splits := by
  rw [split_ok_inv hh hs, List.length_map, List.length_range]

theorem split_getD {cfg : CVConfig} {X : Panel} {splits : List (List Nat × List Nat)}
    (hh : hasEnoughHistory cfg X)
    (hs : MultipleTimeSeriesCV.split cfg X = Except.ok splits)
    {i : Nat} (hi : i < cfg.n_splits) :
    splits.getD i ([], []) = (trainPositions cfg X i, testPositions cfg X i) := by
  rw [split_ok_inv hh hs]
  have hlen : i < ((List.range cfg.n_splits).map (fun i =>
      (trainPositions cfg X i, testPositions cfg X i))).length := by
    rw [List.length_map, List.length_range]; exact hi
  rw [List.getD_eq_getElem _ _ hlen, List.getElem_map, List.getElem_range]

theorem window_index_bound {cfg : CVConfig} {i : Nat} (hi : i < cfg.n_splits) :
    i * cfg.test_period_length + cfg.test_period_length + cfg.lookahead +
      cfg.train_period_length ≤ requiredDates cfg := by
  unfold requiredDates
  have h : (i + 1) * cfg.test_period_length ≤ cfg.n_splits * cfg.test_period_length :=
    Nat.mul_le_mul_right _ (Nat.succ_le_of_lt hi)
  rw [Nat.succ_mul] at h
  omega

theorem length_testWindow {cfg : CVConfig} {X : Panel} {i : Nat}
    (hh : hasEnoughHistory cfg X) (hi : i < cfg.n_splits) :
    (testWindow cfg (uniqueDatesDesc X) i).length = cfg.test_period_length := by
  unfold testWindow
  apply length_drop_take
  have := window_index_bound hi
  unfold hasEnoughHistory at hh
  omega

theorem length_trainWindow {cfg : CVConfig} {X : Panel} {i : Nat}
    (hh : hasEnoughHistory cfg X) (hi : i < cfg.n_splits) :
    (trainWindow cfg (uniqueDatesDesc X) i).length = cfg.train_period_length := by
  unfold trainWindow
  apply length_drop_take
  have := window_index_bound hi
  unfold hasEnoughHistory at hh
  omega

theorem testWindow_subset_dateFinset {cfg : CVConfig} {X : Panel} {i : Nat} :
    ∀ d ∈ testWindow cfg (uniqueDatesDesc X) i, d ∈ dateFinset X := fun d hd =>
  mem_uniqueDatesDesc.mp (subset_drop_take _ _ _ hd)

theorem trainWindow_subset_dateFinset {cfg : CVConfig} {X : Panel} {i : Nat} :
    ∀ d ∈ trainWindow cfg (uniqueDatesDesc X) i, d ∈ dateFinset X := fun d hd =>
  mem_uniqueDatesDesc.mp (subset_drop_take _ _ _ hd)

theorem datesOf_testPositions (cfg : CVConfig) (X : Panel) (i : Nat) :
    datesOf X (testPositions cfg X i) = (testWindow cfg (uniqueDatesDesc X) i).toFinset :=
  datesOf_positionsForDates testWindow_subset_dateFinset

theorem datesOf_trainPositions (cfg : CVConfig) (X : Panel) (i : Nat) :
    datesOf X (trainPositions cfg X i) = (trainWindow cfg (uniqueDatesDesc X) i).toFinset :=
  datesOf_positionsForDates trainWindow_subset_dateFinset

theorem nodup_testWindow (cfg : CVConfig) (X : Panel) (i : Nat) :
    (testWindow cfg (uniqueDatesDesc X) i).Nodup :=
  nodup_drop_take (nodup_uniqueDatesDesc X) _ _

theorem nodup_trainWindow (cfg : CVConfig) (X : Panel) (i : Nat) :
    (trainWindow cfg (uniqueDatesDesc X) i).Nodup :=
  nodup_drop_take (nodup_uniqueDatesDesc X) _ _

/-- C3: for every panel dataset satisfying the distinct-date precondition and
every valid configuration, the sequence produced by `split` contains exactly
`n_splits` (train positions, test positions) pairs. -/
theorem C3_split_count (cfg : CVConfig) (X : Panel) (hv : validConfig cfg)
    (hh : hasEnoughHistory cfg X) (splits : List (List Nat × List Nat))
    (hs : MultipleTimeSeriesCV.split cfg X = Except.ok splits) :
    splits.length = cfg.n_splits :=
  split_length hh hs

/-- Witness for C3 at the small panel and configuration. -/
theorem C3_split_count_witness :
    validConfig smallConfig ∧ smallSplits.length = smallConfig.n_splits :=
  ⟨by decide, C3_split_count smallConfig smallPanel (by decide) (by decide) smallSplits rfl⟩

/-- C2: for every panel dataset satisfying the distinct-date precondition and
every valid configuration, every split has exactly `train_period_length`
distinct dates among its train row positions and exactly `test_period_length`
distinct dates among its test row positions. -/
theorem C2_window_sizes (cfg : CVConfig) (X : Panel) (hv : validConfig cfg)
    (hh : hasEnoughHistory cfg X) (splits : List (List Nat × List Nat))
    (hs : MultipleTimeSeriesCV.split cfg X = Except.ok splits)
    (i : Nat) (hi : i < cfg.n_splits) :
    (datesOf X (splits.getD i ([], [])).1).card = cfg.train_period_length ∧
    (datesOf X (splits.getD i ([], [])).2).card = cfg.test_period_length := by
  rw [split_getD hh hs hi]
  constructor
  · rw [datesOf_trainPositions,
      List.toFinset_card_of_nodup (nodup_trainWindow cfg X i), length_trainWindow hh hi]
  · rw [datesOf_testPositions,
      List.toFinset_card_of_nodup (nodup_testWindow cfg X i), length_testWindow hh hi]

/-- Witness for C2 at the small panel and configuration, split 0. -/
theorem C2_window_sizes_witness :
    validConfig smallConfig ∧
    ((datesOf smallPanel (smallSplits.getD 0 ([], [])).1).card = smallConfig.train_period_length ∧
     (datesOf smallPanel (smallSplits.getD 0 ([], [])).2).card = smallConfig.test_period_length) :=
  ⟨by decide, C2_window_sizes smallConfig smallPanel (by decide) (by decide) smallSplits rfl
    0 (by decide)⟩

/-- C7: for every produced split and every date in that split's train (resp.
test) window, every row position of the panel bearing that date — whatever its
entity — belongs to the split's train (resp. test) position set. -/
theorem C7_all_entities (cfg : CVConfig) (X : Panel) (hv : validConfig cfg)
    (hh : hasEnoughHistory cfg X) (splits : List (List Nat × List Nat))
    (hs : MultipleTimeSeriesCV.split cfg X = Except.ok splits)
    (i : Nat) (hi : i < cfg.n_splits) :
    (∀ d ∈ datesOf X (splits.getD i ([], [])).1, ∀ p, p < X.length →
      (X.getD p defaultRow).date = d → p ∈ (splits.getD i ([], [])).1) ∧
    (∀ d ∈ datesOf X (splits.getD i ([], [])).2, ∀ p, p < X.length →
      (X.getD p defaultRow).date = d → p ∈ (splits.getD i ([], [])).2) := by
  rw [split_getD hh hs hi]
  constructor
  · intro d hd p hp hpd
    rw [datesOf_trainPositions, List.mem_toFinset] at hd
    exact mem_positionsForDates.mpr ⟨hp, by rw [hpd]; exact hd⟩
  · intro d hd p hp hpd
    rw [datesOf_testPositions, List.mem_toFinset] at hd
    exact mem_positionsForDates.mpr ⟨hp, by rw [hpd]; exact hd⟩

/-- Witness for C7 at the small panel and configuration, split 0. -/
theorem C7_all_entities_witness :
    validConfig smallConfig ∧
    ((∀ d ∈ datesOf smallPanel (smallSplits.getD 0 ([], [])).1, ∀ p, p < smallPanel.length →
       (smallPanel.getD p defaultRow).date = d → p ∈ (smallSplits.getD 0 ([], [])).1) ∧
     (∀ d ∈ datesOf smallPanel (smallSplits.getD 0 ([], [])).2, ∀ p, p < smallPanel.length →
       (smallPanel.getD p defaultRow).date = d → p ∈ (smallSplits.getD 0 ([], [])).2)) :=
  ⟨by decide, C7_all_entities smallConfig smallPanel (by decide) (by decide) smallSplits rfl
    0 (by decide)⟩

/-- C8: for every panel with fewer distinct dates than
`n_splits * test_period_length + train_period_length + lookahead`, `split`
returns `InsufficientHistoryError` (with the required and available counts)
instead of producing any (train, test) pair. -/
theorem C8_insufficient_history (cfg : CVConfig) (X : Panel) (hv : validConfig cfg)
    (hlt : (dateFinset X).card < requiredDates cfg) :
    MultipleTimeSeriesCV.split cfg X =
      Except.error (SplitError.insufficientHistory (requiredDates cfg) ((dateFinset X).card)) := by
  unfold MultipleTimeSeriesCV.split
  rw [length_uniqueDatesDesc, if_pos hlt]

/-- Witness for C8 at the two-date panel and the small configuration. -/
theorem C8_insufficient_history_witness :
    validConfig smallConfig ∧
    MultipleTimeSeriesCV.split smallConfig shortPanel =
      Except.error (SplitError.insufficientHistory (requiredDates smallConfig)
        ((dateFinset shortPanel).card)) :=
  ⟨by decide, C8_insufficient_history smallConfig shortPanel (by decide) (by decide)⟩

/-- C9: `split` is a pure function of the dataset and the fixed configuration:
two invocations on equal inputs return identical sequences of position
pairs, and the model has no side effects (it is a total function). -/
theorem C9_split_deterministic (cfg : CVConfig) (X Y : Panel) (hXY : X = Y) :
    MultipleTimeSeriesCV.split cfg X = MultipleTimeSeriesCV.split cfg Y := by
  rw [hXY]

/-- Witness for C9 at the small panel and configuration. -/
theorem C9_split_deterministic_witness :
    smallPanel = smallPanel ∧
    MultipleTimeSeriesCV.split smallConfig smallPanel =
      MultipleTimeSeriesCV.split smallConfig smallPanel :=
  ⟨rfl, C9_split_deterministic smallConfig smallPanel smallPanel rfl⟩

/-- Core gap lemma at window level: all train dates precede all test dates,
the train window has a maximum `mt`, the test window a minimum `mb`, and
exactly `lookahead` distinct panel dates lie strictly between them. -/
theorem gap_facts {cfg : CVConfig} {X : Panel} {i : Nat} (hv : validConfig cfg)
    (hh : hasEnoughHistory cfg X) (hi : i < cfg.n_splits) :
    (∀ a ∈ trainWindow cfg (uniqueDatesDesc X) i,
      ∀ b ∈ testWindow cfg (uniqueDatesDesc X) i, a < b) ∧
    ∃ mt ∈ trainWindow cfg (uniqueDatesDesc X) i,
      ∃ mb ∈ testWindow cfg (uniqueDatesDesc X) i,
        (∀ a ∈ trainWindow cfg (uniqueDatesDesc X) i, a ≤ mt) ∧
        (∀ b ∈ testWindow cfg (uniqueDatesDesc X) i, mb ≤ b) ∧
        ((dateFinset X).filter (fun d => mt < d ∧ d < mb)).card = cfg.lookahead := by
  obtain ⟨hn, hL, hT, hla⟩ := hv
  have hsorted := sorted_uniqueDatesDesc X
  have hglobal : i * cfg.test_period_length + cfg.test_period_length + cfg.lookahead +
      cfg.train_period_length ≤ (uniqueDatesDesc X).length :=
    le_trans (window_index_bound hi) hh
  unfold trainWindow testWindow
  constructor
  · intro a ha b hb
    exact drop_take_lt hsorted (by omega) b hb a ha
  · refine ⟨(uniqueDatesDesc X).getD
        (i * cfg.test_period_length + cfg.test_period_length + cfg.lookahead) 0,
      mem_drop_take_iff.mpr ⟨0, hL, by omega, by rw [Nat.add_zero]⟩,
      (uniqueDatesDesc X).getD (i * cfg.test_period_length + cfg.test_period_length - 1) 0,
      mem_drop_take_iff.mpr ⟨cfg.test_period_length - 1, by omega, by omega, by
        rw [show i * cfg.test_period_length + (cfg.test_period_length - 1)
          = i * cfg.test_period_length + cfg.test_period_length - 1 by omega]⟩,
      ?_, ?_, ?_⟩
    · intro a ha
      obtain ⟨k, hk, hkl, rfl⟩ := mem_drop_take_iff.mp ha
      rcases Nat.eq_zero_or_pos k with rfl | hk0
      · rw [Nat.add_zero]
      · exact le_of_lt (sorted_gt_getD_lt hsorted hkl (by omega))
    · intro b hb
      obtain ⟨k, hk, hkl, rfl⟩ := mem_drop_take_iff.mp hb
      rcases Nat.lt_or_ge (i * cfg.test_period_length + k)
          (i * cfg.test_period_length + cfg.test_period_length - 1) with h | h
      · exact le_of_lt (sorted_gt_getD_lt hsorted (by omega) h)
      · rw [show i * cfg.test_period_length + k
          = i * cfg.test_period_length + cfg.test_period_length - 1 by omega]
    · have hset : (dateFinset X).filter (fun d =>
          (uniqueDatesDesc X).getD
            (i * cfg.test_period_length + cfg.test_period_length + cfg.lookahead) 0 < d ∧
          d < (uniqueDatesDesc X).getD
            (i * cfg.test_period_length + cfg.test_period_length - 1) 0)
          = (((uniqueDatesDesc X).drop
              (i * cfg.test_period_length + cfg.test_period_length)).take
                cfg.lookahead).toFinset := by
        ext d
        simp only [Finset.mem_filter, List.mem_toFinset]
        rw [mem_drop_take_iff]
        constructor
        · rintro ⟨hdF, hlt1, hlt2⟩
          obtain ⟨j, hj, rfl⟩ := mem_iff_getD.mp (mem_uniqueDatesDesc.mpr hdF)
          rw [sorted_gt_getD_lt_iff hsorted hj (by omega)] at hlt1
          rw [sorted_gt_getD_lt_iff hsorted (by omega) hj] at hlt2
          refine ⟨j - (i * cfg.test_period_length + cfg.test_period_length), by omega, by omega, ?_⟩
          rw [show i * cfg.test_period_length + cfg.test_period_length +
            (j - (i * cfg.test_period_length + cfg.test_period_length)) = j by omega]
        · rintro ⟨k, hk, hkl, rfl⟩
          refine ⟨mem_uniqueDatesDesc.mp (mem_iff_getD.mpr ⟨_, hkl, rfl⟩), ?_, ?_⟩
          · rw [sorted_gt_getD_lt_iff hsorted hkl (by omega)]
            omega
          · rw [sorted_gt_getD_lt_iff hsorted (by omega) hkl]
            omega
      rw [hset, List.toFinset_card_of_nodup (nodup_drop_take (nodup_uniqueDatesDesc X) _ _),
        length_drop_take (by omega)]

/-- C1: for every panel satisfying the distinct-date precondition and every
valid configuration, in every produced (train, test) pair all train dates are
strictly earlier than all test dates, and the maximum train date is earlier
than the minimum test date by exactly `lookahead` unique dates (exactly
`lookahead` distinct panel dates lie strictly between them). -/
theorem C1_gap_invariant (cfg : CVConfig) (X : Panel) (hv : validConfig cfg)
    (hh : hasEnoughHistory cfg X) (splits : List (List Nat × List Nat))
    (hs : MultipleTimeSeriesCV.split cfg X = Except.ok splits)
    (i : Nat) (hi : i < cfg.n_splits) :
    (∀ a ∈ datesOf X (splits.getD i ([], [])).1,
      ∀ b ∈ datesOf X (splits.getD i ([], [])).2, a < b) ∧
    ∃ mt ∈ datesOf X (splits.getD i ([], [])).1,
      ∃ mb ∈ datesOf X (splits.getD i ([], [])).2,
        (∀ a ∈ datesOf X (splits.getD i ([], [])).1, a ≤ mt) ∧
        (∀ b ∈ datesOf X (splits.getD i ([], [])).2, mb ≤ b) ∧
        ((dateFinset X).filter (fun d => mt < d ∧ d < mb)).card = cfg.lookahead := by
  rw [split_getD hh hs hi]
  simp only [datesOf_trainPositions, datesOf_testPositions, List.mem_toFinset]
  exact gap_facts hv hh hi

/-- Witness for C1 at the small panel and configuration, split 0. -/
theorem C1_gap_invariant_witness :
    validConfig smallConfig ∧
    ((∀ a ∈ datesOf smallPanel (smallSplits.getD 0 ([], [])).1,
       ∀ b ∈ datesOf smallPanel (smallSplits.getD 0 ([], [])).2, a < b) ∧
     ∃ mt ∈ datesOf smallPanel (smallSplits.getD 0 ([], [])).1,
       ∃ mb ∈ datesOf smallPanel (smallSplits.getD 0 ([], [])).2,
         (∀ a ∈ datesOf smallPanel (smallSplits.getD 0 ([], [])).1, a ≤ mt) ∧
         (∀ b ∈ datesOf smallPanel (smallSplits.getD 0 ([], [])).2, mb ≤ b) ∧
         ((dateFinset smallPanel).filter (fun d => mt < d ∧ d < mb)).card
           = smallConfig.lookahead) :=
  ⟨by decide, C1_gap_invariant smallConfig smallPanel (by decide) (by decide) smallSplits rfl
    0 (by decide)⟩

/-- C4: within each produced split the train and test date sets are disjoint,
and across any two distinct splits the test windows' date sets are disjoint. -/
theorem C4_no_overlap (cfg : CVConfig) (X : Panel) (hv : validConfig cfg)
    (hh : hasEnoughHistory cfg X) (splits : List (List Nat × List Nat))
    (hs : MultipleTimeSeriesCV.split cfg X = Except.ok splits) :
    (∀ i, i < cfg.n_splits →
      Disjoint (datesOf X (splits.getD i ([], [])).1) (datesOf X (splits.getD i ([], [])).2)) ∧
    (∀ i j, i < cfg.n_splits → j < cfg.n_splits → i ≠ j →
      Disjoint (datesOf X (splits.getD i ([], [])).2) (datesOf X (splits.getD j ([], [])).2)) := by
  constructor
  · intro i hi
    rw [split_getD hh hs hi, datesOf_trainPositions, datesOf_testPositions,
      Finset.disjoint_left]
    intro a ha hb
    rw [List.mem_toFinset] at ha hb
    exact absurd ((gap_facts hv hh hi).1 a ha a hb) (lt_irrefl a)
  · have key : ∀ i j, i < j → j < cfg.n_splits →
        Disjoint ((testWindow cfg (uniqueDatesDesc X) i).toFinset)
          ((testWindow cfg (uniqueDatesDesc X) j).toFinset) := by
      intro i j hij hj
      rw [Finset.disjoint_left]
      intro a hai haj
      rw [List.mem_toFinset] at hai haj
      have hle : i * cfg.test_period_length + cfg.test_period_length
          ≤ j * cfg.test_period_length := by
        have h : (i + 1) * cfg.test_period_length ≤ j * cfg.test_period_length :=
          Nat.mul_le_mul_right _ hij
        rw [Nat.succ_mul] at h
        exact h
      exact absurd (drop_take_lt (sorted_uniqueDatesDesc X) hle a hai a haj) (lt_irrefl a)
    intro i j hi hj hij
    rw [split_getD hh hs hi, split_getD hh hs hj, datesOf_testPositions, datesOf_testPositions]
    rcases Nat.lt_or_ge i j with h | h
    · exact key i j h hj
    · exact (key j i (by omega) hi).symm

/-- Witness for C4 at the small panel and configuration. -/
theorem C4_no_overlap_witness :
    validConfig smallConfig ∧
    ((∀ i, i < smallConfig.n_splits →
       Disjoint (datesOf smallPanel (smallSplits.getD i ([], [])).1)
         (datesOf smallPanel (smallSplits.getD i ([], [])).2)) ∧
     (∀ i j, i < smallConfig.n_splits → j < smallConfig.n_splits → i ≠ j →
       Disjoint (datesOf smallPanel (smallSplits.getD i ([], [])).2)
         (datesOf smallPanel (smallSplits.getD j ([], [])).2))) :=
  ⟨by decide, C4_no_overlap smallConfig smallPanel (by decide) (by decide) smallSplits rfl⟩

/-- C5: split 0's test window contains the panel's most recent date, and for
`i > 0` every date of split `i`'s test window strictly precedes every date of
split `i - 1`'s test window. -/
theorem C5_temporal_order (cfg : CVConfig) (X : Panel) (hv : validConfig cfg)
    (hh : hasEnoughHistory cfg X) (splits : List (List Nat × List Nat))
    (hs : MultipleTimeSeriesCV.split cfg X = Except.ok splits) :
    (∃ m ∈ datesOf X (splits.getD 0 ([], [])).2, ∀ d ∈ dateFinset X, d ≤ m) ∧
    (∀ i, 0 < i → i < cfg.n_splits →
      ∀ b ∈ datesOf X (splits.getD i ([], [])).2,
        ∀ a ∈ datesOf X (splits.getD (i - 1) ([], [])).2, b < a) := by
  obtain ⟨hn, hL, hT, hla⟩ := hv
  have hsorted := sorted_uniqueDatesDesc X
  constructor
  · rw [split_getD hh hs hn, datesOf_testPositions]
    have hreq : cfg.train_period_length ≤ requiredDates cfg :=
      calc cfg.train_period_length
          ≤ cfg.train_period_length + cfg.lookahead := Nat.le_add_right _ _
        _ ≤ cfg.n_splits * cfg.test_period_length +
            (cfg.train_period_length + cfg.lookahead) := Nat.le_add_left _ _
        _ = requiredDates cfg := by unfold requiredDates; ring
    have hlen0 : 0 < (uniqueDatesDesc X).length :=
      lt_of_lt_of_le (lt_of_lt_of_le hL hreq) hh
    refine ⟨(uniqueDatesDesc X).getD 0 0, ?_, ?_⟩
    · rw [List.mem_toFinset]
      exact mem_drop_take_iff.mpr ⟨0, hT, by simpa using hlen0, by simp⟩
    · intro d hd
      obtain ⟨j, hj, rfl⟩ := mem_iff_getD.mp (mem_uniqueDatesDesc.mpr hd)
      rcases Nat.eq_zero_or_pos j with rfl | hj0
      · exact le_refl _
      · exact le_of_lt (sorted_gt_getD_lt hsorted hj hj0)
  · intro i hi0 hi
    have hi1 : i - 1 < cfg.n_splits := by omega
    rw [split_getD hh hs hi, split_getD hh hs hi1, datesOf_testPositions, datesOf_testPositions]
    intro b hb a ha
    rw [List.mem_toFinset] at hb ha
    have hle : (i - 1) * cfg.test_period_length + cfg.test_period_length
        ≤ i * cfg.test_period_length := by
      have h : (i - 1 + 1) * cfg.test_period_length
          = (i - 1) * cfg.test_period_length + cfg.test_period_length := Nat.succ_mul _ _
      rw [show i - 1 + 1 = i by omega] at h
      exact h.ge
    exact drop_take_lt hsorted hle a ha b hb

/-- Witness for C5 at the small panel and configuration. -/
theorem C5_temporal_order_witness :
    validConfig smallConfig ∧
    ((∃ m ∈ datesOf smallPanel (smallSplits.getD 0 ([], [])).2,
       ∀ d ∈ dateFinset smallPanel, d ≤ m) ∧
     (∀ i, 0 < i → i < smallConfig.n_splits →
       ∀ b ∈ datesOf smallPanel (smallSplits.getD i ([], [])).2,
         ∀ a ∈ datesOf smallPanel (smallSplits.getD (i - 1) ([], [])).2, b < a)) :=
  ⟨by decide, C5_temporal_order smallConfig smallPanel (by decide) (by decide) smallSplits rfl⟩


/-
Structural characterization of the example scenario's splits.
-/

theorem length_descRange (n : Nat) : (descRange n).length = n := by
  unfold descRange
  rw [List.length_reverse, List.length_map, List.length_range]

theorem sorted_descRange (n : Nat) : (descRange n).Sorted (· > ·) := by
  unfold descRange
  rw [List.Sorted, List.pairwise_reverse, List.pairwise_map]
  exact (List.pairwise_lt_range n).imp (fun h => by omega)

theorem mem_descRange {n d : Nat} : d ∈ descRange n ↔ 1 ≤ d ∧ d ≤ n := by
  unfold descRange
  rw [List.mem_reverse, List.mem_map]
  constructor
  · rintro ⟨k, hk, rfl⟩
    rw [List.mem_range] at hk
    omega
  · rintro ⟨h1, h2⟩
    exact ⟨d - 1, by rw [List.mem_range]; omega, by omega⟩

theorem getD_descRange {n j : Nat} (hj : j < n) : (descRange n).getD j 0 = n - j := by
  unfold descRange
  have hlen : j < ((List.range n).map (fun k => k + 1)).reverse.length := by
    simp only [List.length_reverse, List.length_map, List.length_range]
    exact hj
  rw [List.getD_eq_getElem _ 0 hlen, List.getElem_reverse, List.getElem_map, List.getElem_range]
  simp only [List.length_map, List.length_range]
  omega

theorem uniqueDatesDesc_eq_of_sorted_mem {X : Panel} {L : List Nat}
    (hL : L.Sorted (· > ·)) (hmem : ∀ d, d ∈ L ↔ d ∈ dateFinset X) :
    uniqueDatesDesc X = L := by
  haveI : IsAntisymm Nat (· > ·) := ⟨fun a b h1 h2 => absurd h1 (Nat.lt_asymm h2)⟩
  refine List.eq_of_perm_of_sorted ?_ (sorted_uniqueDatesDesc X) hL
  apply List.perm_of_nodup_nodup_toFinset_eq (nodup_uniqueDatesDesc X) hL.nodup
  ext d
  rw [List.mem_toFinset, List.mem_toFinset, mem_uniqueDatesDesc, hmem]

theorem mem_dateFinset_examplePanel {d : Nat} :
    d ∈ dateFinset examplePanel ↔ 1 ≤ d ∧ d ≤ 300 := by
  unfold dateFinset examplePanel
  rw [List.mem_toFinset, List.mem_map]
  constructor
  · rintro ⟨r, hr, rfl⟩
    rw [List.mem_flatMap] at hr
    obtain ⟨k, hk, hrk⟩ := hr
    rw [List.mem_range] at hk
    simp only [List.mem_cons, List.not_mem_nil, or_false] at hrk
    rcases hrk with rfl | rfl
    · show 1 ≤ k + 1 ∧ k + 1 ≤ 300
      omega
    · show 1 ≤ k + 1 ∧ k + 1 ≤ 300
      omega
  · rintro ⟨h1, h2⟩
    refine ⟨⟨0, d⟩, ?_, rfl⟩
    rw [List.mem_flatMap]
    refine ⟨d - 1, by rw [List.mem_range]; omega, ?_⟩
    rw [show d - 1 + 1 = d by omega]
    exact List.mem_cons_self _ _

theorem uniqueDatesDesc_examplePanel : uniqueDatesDesc examplePanel = descRange 300 :=
  uniqueDatesDesc_eq_of_sorted_mem (sorted_descRange 300)
    (fun d => by rw [mem_descRange, mem_dateFinset_examplePanel])

theorem toFinset_drop_take_descRange {n a b : Nat} (hab : a + b ≤ n) :
    (((descRange n).drop a).take b).toFinset = Finset.Icc (n + 1 - (a + b)) (n - a) := by
  ext d
  rw [List.mem_toFinset, mem_drop_take_iff, Finset.mem_Icc]
  constructor
  · rintro ⟨k, hk, hkl, rfl⟩
    rw [length_descRange] at hkl
    rw [getD_descRange hkl]
    omega
  · rintro ⟨h1, h2⟩
    refine ⟨n - a - d, by omega, ?_, ?_⟩
    · rw [length_descRange]; omega
    · rw [getD_descRange (by omega)]; omega

theorem length_positionsForDates_countP (X : Panel) (ds : List Nat) :
    (positionsForDates X ds).length = X.countP (fun r => decide (r.date ∈ ds)) := by
  unfold positionsForDates
  have key : ∀ (l : Panel) (i : Nat),
      ((l.enumFrom i).filter (fun pr => decide (pr.2.date ∈ ds))).length
        = (l.filter (fun r => decide (r.date ∈ ds))).length := by
    intro l
    induction l with
    | nil => intro i; rfl
    | cons a l ih =>
      intro i
      simp only [List.enumFrom_cons, List.filter_cons]
      by_cases hpa : a.date ∈ ds
      · simp [hpa, ih (i + 1)]
      · simp [hpa, ih (i + 1)]
  rw [List.length_map, show X.enum = X.enumFrom 0 from rfl, key X 0,
    List.countP_eq_length_filter]

theorem countP_pairPanel (p : Row → Bool) (n : Nat) :
    (((List.range n).flatMap (fun k => [⟨0, k + 1⟩, ⟨1, k + 1⟩]) : Panel).countP p)
      = (List.range n).countP (fun k => p ⟨0, k + 1⟩)
        + (List.range n).countP (fun k => p ⟨1, k + 1⟩) := by
  induction n with
  | zero => rfl
  | succ m ih =>
    rw [List.range_succ, List.flatMap_append, List.countP_append, List.countP_append,
      List.countP_append, ih]
    simp only [List.flatMap_cons, List.flatMap_nil, List.append_nil, List.countP_cons,
      List.countP_nil]
    omega

theorem countP_range_mem {n : Nat} {ds : List Nat} (hnd : ds.Nodup)
    (hds : ∀ d ∈ ds, 1 ≤ d ∧ d ≤ n) :
    (List.range n).countP (fun k => decide ((k + 1) ∈ ds)) = ds.length := by
  rw [List.countP_eq_length_filter]
  have hnodup : ((List.range n).filter (fun k => decide ((k + 1) ∈ ds))).Nodup :=
    (List.nodup_range n).filter _
  have himg : (((List.range n).filter (fun k => decide ((k + 1) ∈ ds))).toFinset).image
      (fun k => k + 1) = ds.toFinset := by
    ext e
    rw [Finset.mem_image]
    constructor
    · rintro ⟨k, hk, rfl⟩
      rw [List.mem_toFinset, List.mem_filter, decide_eq_true_eq] at hk
      rw [List.mem_toFinset]
      exact hk.2
    · intro he
      rw [List.mem_toFinset] at he
      obtain ⟨h1, h2⟩ := hds e he
      refine ⟨e - 1, ?_, by omega⟩
      rw [List.mem_toFinset, List.mem_filter]
      refine ⟨by rw [List.mem_range]; omega, ?_⟩
      rw [decide_eq_true_eq, show e - 1 + 1 = e by omega]
      exact he
  rw [← List.toFinset_card_of_nodup hnodup, ← List.toFinset_card_of_nodup hnd, ← himg,
    Finset.card_image_of_injective _ (add_left_injective 1)]

theorem length_positionsForDates_pairPanel {n : Nat} {ds : List Nat} (hnd : ds.Nodup)
    (hds : ∀ d ∈ ds, 1 ≤ d ∧ d ≤ n) :
    (positionsForDates ((List.range n).flatMap (fun k => [⟨0, k + 1⟩, ⟨1, k + 1⟩])) ds).length
      = 2 * ds.length := by
  rw [length_positionsForDates_countP, countP_pairPanel]
  show (List.range n).countP (fun k => decide ((k + 1) ∈ ds))
      + (List.range n).countP (fun k => decide ((k + 1) ∈ ds)) = 2 * ds.length
  rw [countP_range_mem hnd hds]
  omega

theorem length_positions_example {ds : List Nat} (hnd : ds.Nodup)
    (hds : ∀ d ∈ ds, d ∈ dateFinset examplePanel) :
    (positionsForDates examplePanel ds).length = 2 * ds.length := by
  have hb : ∀ d ∈ ds, 1 ≤ d ∧ d ≤ 300 := fun d hd => mem_dateFinset_examplePanel.mp (hds d hd)
  show (positionsForDates ((List.range 300).flatMap (fun k => [⟨0, k + 1⟩, ⟨1, k + 1⟩]))
    ds).length = 2 * ds.length
  exact length_positionsForDates_pairPanel hnd hb

theorem hasEnoughHistory_example : hasEnoughHistory exampleConfig examplePanel := by
  unfold hasEnoughHistory
  rw [uniqueDatesDesc_examplePanel, length_descRange]
  decide

/-- C6 counterexample: on the spec's example scenario the claim's split-1
windows are wrong: date `d239` is not in split 1's test window and date
`d258` is not in split 1's train window (the windows the algorithm yields are
`d259..d279` and `d138..d257`). -/
theorem C6_example_counterexample :
    MultipleTimeSeriesCV.split exampleConfig examplePanel =
      Except.ok ((List.range exampleConfig.n_splits).map (fun i =>
        (trainPositions exampleConfig examplePanel i,
         testPositions exampleConfig examplePanel i))) ∧
    239 ∉ datesOf examplePanel (testPositions exampleConfig examplePanel 1) ∧
    258 ∉ datesOf examplePanel (trainPositions exampleConfig examplePanel 1) := by
  refine ⟨split_ok hasEnoughHistory_example, ?_, ?_⟩
  · rw [datesOf_testPositions, uniqueDatesDesc_examplePanel]
    show 239 ∉ (((descRange 300).drop (1 * 21)).take 21).toFinset
    rw [toFinset_drop_take_descRange (by norm_num)]
    simp only [Finset.mem_Icc]
    omega
  · rw [datesOf_trainPositions, uniqueDatesDesc_examplePanel]
    show 258 ∉ (((descRange 300).drop (1 * 21 + 21 + 1)).take 120).toFinset
    rw [toFinset_drop_take_descRange (by norm_num)]
    simp only [Finset.mem_Icc]
    omega

/-- C6 amended: on the example scenario (300 dates `d1..d300`, 2 entities per
date, `n_splits = 2`, `test_period_length = 21`, `train_period_length = 120`,
`lookahead = 1`) split 0's test window is `d280..d300` (21 dates, 42 rows) and
its train window `d159..d278` (120 dates, 240 rows), as the claim states;
split 1's test window is `d259..d279` — the next 21 dates back — (42 rows)
and its train window `d138..d257` (240 rows). -/
theorem C6_example_amended :
    MultipleTimeSeriesCV.split exampleConfig examplePanel =
      Except.ok ((List.range exampleConfig.n_splits).map (fun i =>
        (trainPositions exampleConfig examplePanel i,
         testPositions exampleConfig examplePanel i))) ∧
    datesOf examplePanel (testPositions exampleConfig examplePanel 0) = Finset.Icc 280 300 ∧
    (testPositions exampleConfig examplePanel 0).length = 42 ∧
    datesOf examplePanel (trainPositions exampleConfig examplePanel 0) = Finset.Icc 159 278 ∧
    (trainPositions exampleConfig examplePanel 0).length = 240 ∧
    datesOf examplePanel (testPositions exampleConfig examplePanel 1) = Finset.Icc 259 279 ∧
    (testPositions exampleConfig examplePanel 1).length = 42 ∧
    datesOf examplePanel (trainPositions exampleConfig examplePanel 1) = Finset.Icc 138 257 ∧
    (trainPositions exampleConfig examplePanel 1).length = 240 := by
  have hh := hasEnoughHistory_example
  refine ⟨split_ok hh, ?_, ?_, ?_, ?_, ?_, ?_, ?_, ?_⟩
  · rw [datesOf_testPositions, uniqueDatesDesc_examplePanel]
    show (((descRange 300).drop (0 * 21)).take 21).toFinset = Finset.Icc 280 300
    rw [toFinset_drop_take_descRange (by norm_num)]
  · unfold testPositions
    rw [length_positions_example (nodup_testWindow _ _ _) testWindow_subset_dateFinset,
      length_testWindow hh (by decide)]
    decide
  · rw [datesOf_trainPositions, uniqueDatesDesc_examplePanel]
    show (((descRange 300).drop (0 * 21 + 21 + 1)).take 120).toFinset = Finset.Icc 159 278
    rw [toFinset_drop_take_descRange (by norm_num)]
  · unfold trainPositions
    rw [length_positions_example (nodup_trainWindow _ _ _) trainWindow_subset_dateFinset,
      length_trainWindow hh (by decide)]
    decide
  · rw [datesOf_testPositions, uniqueDatesDesc_examplePanel]
    show (((descRange 300).drop (1 * 21)).take 21).toFinset = Finset.Icc 259 279
    rw [toFinset_drop_take_descRange (by norm_num)]
  · unfold testPositions
    rw [length_positions_example (nodup_testWindow _ _ _) testWindow_subset_dateFinset,
      length_testWindow hh (by decide)]
    decide
  · rw [datesOf_trainPositions, uniqueDatesDesc_examplePanel]
    show (((descRange 300).drop (1 * 21 + 21 + 1)).take 120).toFinset = Finset.Icc 138 257
    rw [toFinset_drop_take_descRange (by norm_num)]
  · unfold trainPositions
    rw [length_positions_example (nodup_trainWindow _ _ _) trainWindow_subset_dateFinset,
      length_trainWindow hh (by decide)]
    decide

/-- C10: in the notebook's CatBoost branch the prediction step resolves the
feature columns with `model.feature_name()`, a LightGBM-only accessor absent
from the CatBoost model, so an execution state reaching it fails with an
attribute failure; moreover the branch references `outcome_data`,
`cat_cols_idx` and `CatBoostRegressor`, none of which is ever bound (only
`Pool` is imported from catboost), and reads the parameter key `'max_deptn'`
which the tuned-parameter mapping does not contain, so running the branch
fails at `outcome_data` before any model fit is executed. -/
theorem C10_catboost_branch_defects :
    runStmts envBeforeCatboostBranch 0 catboostBranch
      = (0, some (PyFailure.nameFailure "outcome_data")) ∧
    "outcome_data" ∉ envBeforeCatboostBranch ∧
    "cat_cols_idx" ∉ envBeforeCatboostBranch ∧
    "CatBoostRegressor" ∉ envBeforeCatboostBranch ∧
    "max_deptn" ∉ catboostParamKeys ∧
    catboostImportedNames = ["Pool"] ∧
    Stmt.predictFeatures ModelFamily.catboost "feature_name" ["model", "test_set"]
      ∈ catboostBranch ∧
    hasFeatureNameAccessor ModelFamily.catboost = false ∧
    hasFeatureNameAccessor ModelFamily.lightgbm = true ∧
    runStmts ["model", "test_set"] 1
        [Stmt.predictFeatures ModelFamily.catboost "feature_name" ["model", "test_set"]]
      = (1, some (PyFailure.attributeFailure ModelFamily.catboost "feature_name")) := by
  decide!
